import Mathlib

/-!
Verification of the Tetris game simulation core.

This file gives a shallow embedding, in Lean 4, of the simulation core of
the Tetris game (grid, pieces, collision, line clearing, scoring, power-ups,
rising lines, and the game-over/demo state machine), translated from the
Python sources `src/tetris.py`, `src/powerups.py`, `src/demo_ai.py`,
`src/game_states.py` and `src/config.py`, and proves properties of that
embedding.

Modelling conventions:
- Python `None`-or-color grid cells become `Option Color`; a grid is a list
  of rows, each row a list of cells, exactly as the Python list-of-lists.
- Machine integers are `Nat`/`Int`; all float arithmetic in the scoring code
  uses values (combo multipliers 1.0 .. 5.0 in unit steps, integer scores)
  that are exactly representable, so it is embedded as exact integer
  arithmetic.
- Randomness (random pieces, random rising-line holes) is passed in as
  explicit oracle parameters.
- Python in-place list mutation that matters for aliasing claims (the AI's
  row copies, `Tetromino.copy`) is modelled with an explicit append-only
  store of heap cells addressed by index.
-/

/-- An RGB color token, as the Python `(r, g, b)` tuples. -/
abbrev Color := ℕ × ℕ × ℕ

/-- A grid cell: `None` (empty) or a color token. -/
abbrev Cell := Option Color

/-- One row of the board grid. -/
abbrev Row := List Cell

/-- The board grid, a list of rows, row 0 at the top. -/
abbrev Grid := List Row

/-- A shape matrix: the Python 2D list of 0/1 ints; a cell is filled iff
its entry is nonzero (`if cell:`). -/
abbrev Shape := List (List ℕ)

/-- The five power-up kinds of `config.py`'s `POWER_UP_TYPES`. -/
inductive PowerupKind where
  | timeDilator
  | scoreAmplifier
  | lineBomb
  | phantomMode
  | precisionLock
deriving DecidableEq, Repr

/-- A power-up kind is configured either duration-based (milliseconds) or
use-based (a use count), never both (`POWER_UP_TYPES` entries). -/
inductive PowerupSpec where
  | duration (ms : ℕ)
  | uses (n : ℕ)
deriving DecidableEq, Repr

/-- The rising-lines mode (`RISING_MODE`). -/
inductive RisingMode where
  | off
  | pressure
  | survival
  | manual
deriving DecidableEq, Repr

/-- The configuration constants of `config.py` consumed by the simulation
core (`GameConfig`). -/
structure GameConfig where
  gridWidth : ℕ
  gridHeight : ℕ
  lineScores : ℕ → ℕ
  linesPerLevel : ℕ
  initialFallSpeed : ℕ
  minFallSpeed : ℕ
  levelSpeedDecrease : ℕ
  comboMultiplierBase : ℕ
  comboMultiplierIncrement : ℕ
  maxComboMultiplier : ℕ
  comboDisplayDuration : ℕ
  powerUpTypes : PowerupKind → PowerupSpec
  risingLinesEnabled : Bool
  risingMode : RisingMode
  risingInitialInterval : ℕ
  risingIntervalDecrease : ℕ
  risingMinInterval : ℕ
  risingSurvivalInterval : ℕ
  risingWarningTime : ℕ
  risingAnimationDuration : ℕ
  risingManualCooldown : ℕ
  demoAfterGameOver : Bool
  demoGameOverDelay : ℕ

/-- `POWER_UP_TYPES` of `config.py`. -/
def defaultPowerUpTypes : PowerupKind → PowerupSpec
  | .timeDilator => .duration 10000
  | .scoreAmplifier => .duration 8000
  | .lineBomb => .uses 1
  | .phantomMode => .uses 3
  | .precisionLock => .duration 2000

/-- `LINE_SCORES = {1: 100, 2: 300, 3: 500, 4: 800}` with `.get(n, 0)`
semantics. -/
def defaultLineScores : ℕ → ℕ
  | 1 => 100
  | 2 => 300
  | 3 => 500
  | 4 => 800
  | _ => 0

/-- The default configuration values of `config.py`. The combo multiplier
constants (`COMBO_MULTIPLIER_BASE = 1.0`, increment `1.0`, cap `5.0`) are
integers, so they are carried as naturals. -/
def defaultConfig : GameConfig where
  gridWidth := 10
  gridHeight := 20
  lineScores := defaultLineScores
  linesPerLevel := 10
  initialFallSpeed := 1000
  minFallSpeed := 100
  levelSpeedDecrease := 100
  comboMultiplierBase := 1
  comboMultiplierIncrement := 1
  maxComboMultiplier := 5
  comboDisplayDuration := 2000
  powerUpTypes := defaultPowerUpTypes
  risingLinesEnabled := true
  risingMode := .pressure
  risingInitialInterval := 30000
  risingIntervalDecrease := 2000
  risingMinInterval := 10000
  risingSurvivalInterval := 12000
  risingWarningTime := 5000
  risingAnimationDuration := 300
  risingManualCooldown := 5000
  demoAfterGameOver := true
  demoGameOverDelay := 3000

/-- A falling piece (`Tetromino`): shape matrix, color, grid position
(`y` may be negative above the board), and the local-cell power-up tag map
`powerup_blocks`. -/
structure Piece where
  shape : Shape
  color : Color
  x : ℤ
  y : ℤ
  powerupBlocks : List ((ℕ × ℕ) × PowerupKind)
deriving DecidableEq, Repr

/-- The local `(x, y)` coordinates of the filled shape cells, in the
row-major order every piece-iteration loop of the source uses. -/
def localBlocks (p : Piece) : List (ℕ × ℕ) :=
  p.shape.enum.flatMap fun ly_row =>
    ly_row.2.enum.filterMap fun lx_cell =>
      if lx_cell.2 ≠ 0 then some (lx_cell.1, ly_row.1) else none

/-- `Tetromino.get_blocks`: absolute grid coordinates of the filled cells,
in row-major shape order. -/
def getBlocks (p : Piece) : List (ℤ × ℤ) :=
  (localBlocks p).map fun l => (p.x + l.1, p.y + l.2)

/-- `Tetromino.rotate_clockwise`: `zip(*self.shape[::-1])`, i.e. the
transpose of the row-reversed matrix (shapes are rectangular, where
`zip` and transpose agree). -/
def rotateCW (s : Shape) : Shape :=
  (s.reverse).transpose

/-- Read grid cell `grid[y][x]` (empty outside the list bounds; the game
only reads in-bounds cells). -/
def cellAt (g : Grid) (x y : ℕ) : Cell :=
  (g.getD y []).getD x none

/-- Write color `c` into grid cell `grid[y][x]` (no-op outside bounds; the
game only writes in-bounds cells). -/
def setCell (g : Grid) (x y : ℕ) (c : Color) : Grid :=
  g.set y ((g.getD y []).set x (some c))

/-- The per-block validity test of `TetrisGame.is_valid_position`:
boundary check first (phantom mode never bypasses it), then — for rows
on the board — the occupied-cell check, bypassed exactly when phantom
mode is active. -/
def blockOk (cfg : GameConfig) (g : Grid) (phantom : Bool) (dx dy : ℤ)
    (b : ℤ × ℤ) : Bool :=
  let nx := b.1 + dx
  let ny := b.2 + dy
  if nx < 0 ∨ (cfg.gridWidth : ℤ) ≤ nx ∨ (cfg.gridHeight : ℤ) ≤ ny then
    false
  else if 0 ≤ ny ∧ (cellAt g nx.toNat ny.toNat).isSome = true then
    phantom
  else
    true

/-- `TetrisGame.is_valid_position(piece, offset_x, offset_y)`, with the
`phantom_mode` activity flag passed explicitly. -/
def isValidPosition (cfg : GameConfig) (g : Grid) (phantom : Bool)
    (p : Piece) (dx dy : ℤ) : Bool :=
  (getBlocks p).all (blockOk cfg g phantom dx dy)

/-- The fixed wall-kick offsets tried by `TetrisGame.rotate_piece`. -/
def kicks : List (ℤ × ℤ) := [(0, 0), (-1, 0), (1, 0), (0, -1), (-1, -1), (1, -1)]

/-- `TetrisGame.rotate_piece`: rotate clockwise, try the wall-kick offsets
in order and commit the first valid one; if none validates, restore the
saved pre-rotation shape (the position was never modified). -/
def rotatePiece (cfg : GameConfig) (g : Grid) (phantom : Bool) (p : Piece) :
    Piece :=
  let rotated : Piece := { p with shape := rotateCW p.shape }
  match kicks.find? (fun k => isValidPosition cfg g phantom rotated k.1 k.2) with
  | some k => { rotated with x := rotated.x + k.1, y := rotated.y + k.2 }
  | none => { rotated with shape := p.shape }

/-- The full-row scan of `TetrisGame.clear_lines`: the row indices
(ascending) whose every column is occupied. -/
def fullRows (cfg : GameConfig) (g : Grid) : List ℕ :=
  (List.range cfg.gridHeight).filter fun y =>
    (List.range cfg.gridWidth).all fun x => (cellAt g x y).isSome

/-- The grid-rebuild step of `TetrisGame.finish_clearing_animation`
(`removeRows`): if the clearing list is nonempty, keep — in original
top-to-bottom order — exactly the rows whose index is not in the list,
and prepend one fully empty row per cleared line. -/
def finishClearingAnimation (cfg : GameConfig) (g : Grid)
    (clearing : List ℕ) : Grid :=
  if clearing.isEmpty then g
  else
    let kept := ((List.range cfg.gridHeight).filter
      (fun y => !(clearing.contains y))).map (fun y => g.getD y [])
    List.replicate clearing.length (List.replicate cfg.gridWidth none) ++ kept

/-!
## Power-up manager (`src/powerups.py`)

The Python `active_powerups` dict maps a kind to its remaining duration or
use count, with the invariant that a key is present iff its value is
positive (activation adds a positive amount, `update`/`use_powerup` delete
entries at or below zero).  It is embedded as a total function
`PowerupKind → ℕ` where value `0` means "absent", so
`kind in active_powerups` becomes `value ≠ 0`. -/

/-- The activation amount of a kind: its configured duration for
duration-based kinds, its configured use count for use-based ones. -/
def powerupAmount (cfg : GameConfig) (k : PowerupKind) : ℕ :=
  match cfg.powerUpTypes k with
  | .duration d => d
  | .uses n => n

/-- `PowerUpManager.is_active`. -/
def isActive (a : PowerupKind → ℕ) (k : PowerupKind) : Bool :=
  decide (a k ≠ 0)

/-- `PowerUpManager.activate_powerup`: adds the configured duration or use
count to the existing remaining value (`get(kind, 0) + amount`) — it
stacks, it does not reset. -/
def activatePowerup (cfg : GameConfig) (a : PowerupKind → ℕ)
    (k : PowerupKind) : PowerupKind → ℕ :=
  fun k' => if k' = k then a k + powerupAmount cfg k else a k'

/-- `PowerUpManager.use_powerup`: one use of a use-based active kind is
consumed (the entry is deleted when it reaches 0, here value 0); returns
whether a use was consumed. -/
def usePowerup (cfg : GameConfig) (a : PowerupKind → ℕ)
    (k : PowerupKind) : (PowerupKind → ℕ) × Bool :=
  if a k = 0 then (a, false)
  else
    match cfg.powerUpTypes k with
    | .duration _ => (a, false)
    | .uses _ => (fun k' => if k' = k then a k - 1 else a k', true)

/-- `PowerUpManager.update`: duration-based entries decay by the elapsed
milliseconds and are removed at or below zero; use-based entries are
unaffected by time. -/
def powerupTick (cfg : GameConfig) (delta : ℕ) (a : PowerupKind → ℕ) :
    PowerupKind → ℕ :=
  fun k =>
    match cfg.powerUpTypes k with
    | .duration _ => if a k ≤ delta then 0 else a k - delta
    | .uses _ => a k

/-- A stored power-up block: `(x, y, kind)` against board coordinates. -/
abbrev PowerupBlock := ℤ × ℤ × PowerupKind

/-- `PowerUpManager.remove_powerups_in_lines`: single forward pass over the
stored blocks, collecting the kinds found in the cleared lines (in stored
order, duplicates preserved) and keeping the rest. Returns
`(activated kinds, remaining blocks)`. -/
def removePowerupsInLines (blocks : List PowerupBlock) (lines : List ℤ) :
    List PowerupKind × List PowerupBlock :=
  match blocks with
  | [] => ([], [])
  | b :: bs =>
    let rest := removePowerupsInLines bs lines
    if lines.contains b.2.1 then (b.2.2 :: rest.1, rest.2)
    else (rest.1, b :: rest.2)

/-!
## Game session state (`TetrisGame` and the state pattern)

Presentation-only fields (combo display strings, fonts, screen) are not
part of the simulation state.  The combo multiplier is carried as a
natural number: with the default configuration it only ever takes the
integer float values 1.0 .. 5.0. -/

/-- The game-state tag of the State pattern (`game_states.py`), with the
per-state mutable fields (`LineClearingState.previous_state`,
`GameOverState.game_over_time`, `DemoState.move_timer`) as payload. -/
inductive StateTag where
  | playing
  | paused
  | clearing (prev : StateTag)
  | gameOver (gameOverTime : ℕ)
  | demo (moveTimer : ℕ)
  | configMenu
deriving DecidableEq, Repr

/-- The simulation-relevant mutable state of `TetrisGame`. -/
structure Session where
  grid : Grid
  currentPiece : Option Piece
  nextPiece : Option Piece
  holdPiece : Option Piece
  canHold : Bool
  score : ℕ
  level : ℕ
  linesCleared : ℕ
  gameOver : Bool
  comboCount : ℕ
  comboMultiplier : ℕ
  comboDisplayTime : ℤ
  activePowerups : PowerupKind → ℕ
  powerupBlocks : List PowerupBlock
  lockDelayTimer : ℕ
  pieceHasLanded : Bool
  fallTime : ℕ
  fallSpeed : ℕ
  clearingLines : List ℕ
  clearAnimationTime : ℕ
  risingTimer : ℕ
  risingInterval : Option ℕ
  risingWarningActive : Bool
  risingAnimationActive : Bool
  risingAnimationProgress : ℕ
  risingManualCooldown : ℕ
  stateTag : StateTag

/-- The grid half of the transfer loop of `TetrisGame.lock_piece`: every
filled shape cell landing at `grid_y ≥ 0` is written — unconditionally,
overwriting whatever was there — with the piece color.  (The Python loop
also accumulates power-up transfers; the two accumulators never interact,
so the loop is split into `transferGrid` and `transferPowerups`.) -/
def transferGrid (p : Piece) (g : Grid) : Grid :=
  (localBlocks p).foldl
    (fun acc l =>
      if 0 ≤ p.y + l.2 then
        setCell acc (p.x + l.1).toNat (p.y + l.2).toNat p.color
      else acc) g

/-- The power-up half of the transfer loop of `TetrisGame.lock_piece`:
for every filled shape cell landing at `grid_y ≥ 0` whose local coordinate
carries a power-up tag, `add_powerup_block` appends the tag at the
absolute coordinate. -/
def transferPowerups (p : Piece) (blocks : List PowerupBlock) :
    List PowerupBlock :=
  (localBlocks p).foldl
    (fun acc l =>
      if 0 ≤ p.y + l.2 then
        match p.powerupBlocks.lookup l with
        | some k => acc ++ [(p.x + l.1, p.y + l.2, k)]
        | none => acc
      else acc) blocks


/-- `TetrisGame.spawn_new_piece`, with the fresh random piece passed as an
oracle parameter: the next piece becomes current, a new next piece is
drawn, hold becomes available again, and an immediately-invalid spawn
position triggers game over. -/
def spawnNewPiece (cfg : GameConfig) (pNew : Piece) (s : Session) : Session :=
  let s1 := { s with currentPiece := s.nextPiece, nextPiece := some pNew,
                     canHold := true }
  match s1.currentPiece with
  | some p =>
    if ¬ isValidPosition cfg s1.grid (isActive s1.activePowerups .phantomMode)
        p 0 0 then
      { s1 with gameOver := true, stateTag := .gameOver 0 }
    else s1
  | none => s1

/-- `TetrisGame.clear_lines`: scan for full rows; if any are found, start
the clearing animation, add the (combo- and amplifier-adjusted) score,
bump the combo counter, handle level progression, harvest and activate
power-ups from the cleared rows, and enter `LineClearingState`. With no
full rows the state is untouched. Float multiplier arithmetic is exact
integer arithmetic for the integer-valued default combo constants. -/
def clearLines (cfg : GameConfig) (s : Session) : Session :=
  let lines := fullRows cfg s.grid
  if lines.isEmpty then s
  else
    let n := lines.length
    let linesClearedTotal := s.linesCleared + n
    let base := cfg.lineScores n * s.level
    let multAndScore :=
      if 0 < s.comboCount then
        let m := min (cfg.comboMultiplierBase +
          s.comboCount * cfg.comboMultiplierIncrement) cfg.maxComboMultiplier
        (m, base * m)
      else (1, base)
    let finalScore :=
      if isActive s.activePowerups .scoreAmplifier then multAndScore.2 * 2
      else multAndScore.2
    let newComboCount := s.comboCount + 1
    let newDisplayTime :=
      if 1 < newComboCount then (cfg.comboDisplayDuration : ℤ)
      else s.comboDisplayTime
    let newLevel := linesClearedTotal / cfg.linesPerLevel + 1
    let levelAndSpeed :=
      if s.level < newLevel then
        (newLevel, max cfg.minFallSpeed
          (cfg.initialFallSpeed - (newLevel - 1) * cfg.levelSpeedDecrease))
      else (s.level, s.fallSpeed)
    let harvested := removePowerupsInLines s.powerupBlocks (lines.map Int.ofNat)
    { s with
      clearingLines := lines,
      clearAnimationTime := 0,
      linesCleared := linesClearedTotal,
      comboMultiplier := multAndScore.1,
      score := s.score + finalScore,
      comboCount := newComboCount,
      comboDisplayTime := newDisplayTime,
      level := levelAndSpeed.1,
      fallSpeed := levelAndSpeed.2,
      powerupBlocks := harvested.2,
      activePowerups := harvested.1.foldl (activatePowerup cfg) s.activePowerups,
      stateTag := .clearing s.stateTag }

/-- `TetrisGame.lock_piece`, with the spawn oracle piece as a parameter:
consume one phantom-mode use if it is active, transfer the piece's blocks
and power-up tags into the grid, run line detection; when nothing clears,
reset the combo and spawn the next piece. -/
def lockPiece (cfg : GameConfig) (pNew : Piece) (s : Session) : Session :=
  match s.currentPiece with
  | none => s
  | some p =>
    let afterUse :=
      if isActive s.activePowerups .phantomMode then
        (usePowerup cfg s.activePowerups .phantomMode).1
      else s.activePowerups
    let s1 := { s with activePowerups := afterUse,
                       grid := transferGrid p s.grid,
                       powerupBlocks := transferPowerups p s.powerupBlocks,
                       lockDelayTimer := 0, pieceHasLanded := false }
    let s2 := clearLines cfg s1
    if s2.clearingLines.isEmpty then
      spawnNewPiece cfg pNew { s2 with comboCount := 0, comboMultiplier := 1 }
    else s2

/-- `TetrisGame._will_rise_cause_game_over`: true iff the top row has any
occupied cell. -/
def willRiseCauseGameOver (cfg : GameConfig) (g : Grid) : Bool :=
  (List.range cfg.gridWidth).any fun x => (cellAt g x 0).isSome

/-- `TetrisGame.calculate_rising_interval`; the Python `float("inf")` for
disabled/off/manual modes is `none`. -/
def calculateRisingInterval (cfg : GameConfig) (level : ℕ) : Option ℕ :=
  if ¬cfg.risingLinesEnabled ∨ cfg.risingMode = .off then none
  else if cfg.risingMode = .manual then none
  else if cfg.risingMode = .survival then some cfg.risingSurvivalInterval
  else some (max (cfg.risingInitialInterval -
    (level - 1) * cfg.risingIntervalDecrease) cfg.risingMinInterval)

/-- `TetrisGame.trigger_rising_line`, with the randomly-holed new bottom
row passed as an oracle parameter: no-op when the feature is off; game
over (and nothing else) when the top row is occupied; otherwise shift the
grid up one row, append the new row, move the live piece up, shift stored
power-up blocks up (dropping row 0), start the rise animation and reset
the timer and interval. -/
def triggerRisingLine (cfg : GameConfig) (newLine : Row) (s : Session) :
    Session :=
  if ¬cfg.risingLinesEnabled ∨ cfg.risingMode = .off then s
  else if willRiseCauseGameOver cfg s.grid then
    { s with gameOver := true, stateTag := .gameOver 0 }
  else
    { s with
      grid := (List.range' 1 (cfg.gridHeight - 1)).map
        (fun i => s.grid.getD i []) ++ [newLine],
      currentPiece := s.currentPiece.map (fun p => { p with y := p.y - 1 }),
      powerupBlocks := (s.powerupBlocks.filter (fun b => 0 < b.2.1)).map
        (fun b => (b.1, b.2.1 - 1, b.2.2)),
      risingAnimationActive := true,
      risingAnimationProgress := 0,
      risingTimer := 0,
      risingWarningActive := false,
      risingInterval := calculateRisingInterval cfg s.level }

/-- `TetrisGame.update_rising_lines`: cooldown decay, rise-animation
bookkeeping (the timer freezes during the animation), no timer in manual
mode, then timer accumulation, the warning window, and the triggered
rise. Comparisons against the infinite interval (`none`) are false, as in
Python float-infinity arithmetic. -/
def updateRisingLines (cfg : GameConfig) (newLine : Row) (delta : ℕ)
    (s : Session) : Session :=
  if ¬cfg.risingLinesEnabled ∨ cfg.risingMode = .off then s
  else
    let s1 :=
      if 0 < s.risingManualCooldown then
        { s with risingManualCooldown := s.risingManualCooldown - delta }
      else s
    if s1.risingAnimationActive then
      let prog := s1.risingAnimationProgress + delta
      if cfg.risingAnimationDuration ≤ prog then
        { s1 with risingAnimationActive := false, risingAnimationProgress := 0 }
      else { s1 with risingAnimationProgress := prog }
    else if cfg.risingMode = .manual then s1
    else
      let timer := s1.risingTimer + delta
      let warning :=
        match s1.risingInterval with
        | none => false
        | some iv => decide ((iv : ℤ) - (timer : ℤ) ≤ (cfg.risingWarningTime : ℤ)
            ∧ 0 < (iv : ℤ) - (timer : ℤ))
      let s2 := { s1 with risingTimer := timer, risingWarningActive := warning }
      match s2.risingInterval with
      | none => s2
      | some iv => if iv ≤ timer then triggerRisingLine cfg newLine s2 else s2

/-- `TetrisGame.reset_game`, with the two fresh random pieces (the reset
next piece, and the next piece drawn by the subsequent spawn) as oracle
parameters.  Note the source does not reset `fall_time`. -/
def resetGame (cfg : GameConfig) (pA pB : Piece) (s : Session) : Session :=
  spawnNewPiece cfg pB
    { s with
      grid := List.replicate cfg.gridHeight (List.replicate cfg.gridWidth none),
      score := 0, level := 1, linesCleared := 0, gameOver := false,
      fallSpeed := cfg.initialFallSpeed,
      clearingLines := [], clearAnimationTime := 0,
      comboCount := 0, comboMultiplier := 1, comboDisplayTime := 0,
      activePowerups := fun _ => 0, powerupBlocks := [],
      lockDelayTimer := 0, pieceHasLanded := false,
      risingTimer := 0, risingInterval := some cfg.risingInitialInterval,
      risingWarningActive := false, risingAnimationActive := false,
      risingAnimationProgress := 0, risingManualCooldown := 0,
      nextPiece := some pA, holdPiece := none, canHold := true,
      stateTag := .playing }

/-- `GameOverState.update`: when auto-demo is enabled, accumulate the
elapsed time in the state object; once it reaches the configured delay,
reset the session and enter a fresh `DemoState`. -/
def gameOverStateUpdate (cfg : GameConfig) (pA pB : Piece) (delta t : ℕ)
    (s : Session) : Session :=
  if cfg.demoAfterGameOver then
    let tNew := t + delta
    if cfg.demoGameOverDelay ≤ tNew then
      { resetGame cfg pA pB s with stateTag := .demo 0 }
    else { s with stateTag := .gameOver tNew }
  else s

/-- `TetrisGame.update`: the per-tick driver.  It returns immediately when
`game_over` is set; otherwise it decrements the combo display timer, ticks
the power-up manager (`_apply_powerup_effects` is a no-op in the source),
updates the rising-lines system unless clearing or paused, and finally
delegates to the active state's `update`.  The dynamically-dispatched
update methods of the states other than `GameOverState` are passed in as
`hooks` (the theorems below hold for every choice of them); random pieces
and the random rising row are oracle parameters. -/
def tickUpdate (cfg : GameConfig) (hooks : StateTag → ℕ → Session → Session)
    (newLine : Row) (pA pB : Piece) (delta : ℕ) (s : Session) : Session :=
  if s.gameOver then s
  else
    let s1 :=
      if 0 < s.comboDisplayTime then
        { s with comboDisplayTime := s.comboDisplayTime - (delta : ℤ) }
      else s
    let s2 := { s1 with activePowerups := powerupTick cfg delta s1.activePowerups }
    let s3 :=
      match s2.stateTag with
      | .clearing _ => s2
      | .paused => s2
      | _ => updateRisingLines cfg newLine delta s2
    match s3.stateTag with
    | .gameOver t => gameOverStateUpdate cfg pA pB delta t s3
    | tag => hooks tag delta s3

/-!
## Demo AI (`src/demo_ai.py`)

`DemoAI.evaluate_placement` copies the piece, rotates and drops the copy,
copies the grid's rows (`[row[:] for row in self.game.grid]`), writes the
landed piece into the copies and scores the result.  To make the
"never mutates the input board" property expressible, the board is
modelled as a list of row references into an append-only store of rows:
the Python row copies become freshly appended store entries, so a call can
only ever extend the store, never change an existing row. The copied test
piece is a value (Python only ever rebinds its fields and rebinds its
shape to freshly built lists, never mutating the original's lists in
place). -/

/-- `DemoAI._is_valid_position_in_grid`: like the game's validity check
but with no phantom-mode bypass. -/
def isValidInGrid (cfg : GameConfig) (g : Grid) (p : Piece) (dx dy : ℤ) :
    Bool :=
  (getBlocks p).all fun b =>
    let nx := b.1 + dx
    let ny := b.2 + dy
    if nx < 0 ∨ (cfg.gridWidth : ℤ) ≤ nx ∨ (cfg.gridHeight : ℤ) ≤ ny then
      false
    else if 0 ≤ ny ∧ (cellAt g nx.toNat ny.toNat).isSome = true then
      false
    else
      true

/-- `for _ in range(n): test_piece.rotate_clockwise()`. -/
def applyRotations : ℕ → Piece → Piece
  | 0, p => p
  | n + 1, p => applyRotations n { p with shape := rotateCW p.shape }

/-- The drop loop of `evaluate_placement`
(`while valid(test_piece, grid, 0, 1): test_piece.y += 1`, starting from
`y = 0`), run with enough fuel: for a piece with at least one block the
loop stops at `y ≤ gridHeight - 1`, so `gridHeight + 1` steps always
suffice (a blockless piece would loop forever in Python). -/
def dropYAux (cfg : GameConfig) (g : Grid) (tp : Piece) : ℕ → ℤ → ℤ
  | 0, y => y
  | fuel + 1, y =>
    if isValidInGrid cfg g { tp with y := y } 0 1 then
      dropYAux cfg g tp fuel (y + 1)
    else y

/-- The resting row found by the drop loop of `evaluate_placement`. -/
def dropY (cfg : GameConfig) (g : Grid) (tp : Piece) : ℤ :=
  dropYAux cfg g tp (cfg.gridHeight + 1) 0

/-- The simulated test piece of `evaluate_placement`: a copy of the input
piece, rotated `rotation % 4` times, placed at column `x`, dropped from
`y = 0` to its resting row. -/
def aiTestPiece (cfg : GameConfig) (g : Grid) (p : Piece) (x : ℤ)
    (rot : ℕ) : Piece :=
  let tp := applyRotations (rot % 4) p
  let tp2 : Piece := { tp with x := x, y := 0 }
  { tp2 with y := dropY cfg g tp2 }

/-- The overlay step of `evaluate_placement`: write every block of the
test piece with `0 ≤ block_y < gridHeight` into the (freshly copied)
grid rows. -/
def simulateLock (cfg : GameConfig) (g : Grid) (tp : Piece) : Grid :=
  (getBlocks tp).foldl
    (fun acc b =>
      if 0 ≤ b.2 ∧ b.2 < (cfg.gridHeight : ℤ) then
        setCell acc b.1.toNat b.2.toNat tp.color
      else acc) g

/-- The AI's own `line_clear_scores = {1: 100, 2: 300, 3: 500, 4: 800}`
dict with `.get(n, 0)` semantics. -/
def lineClearScoresAI : ℕ → ℕ
  | 1 => 100
  | 2 => 300
  | 3 => 500
  | 4 => 800
  | _ => 0

/-- `DemoAI._get_column_heights` for one column: distance from the first
occupied cell to the bottom, `0` for an empty column. -/
def columnHeight (cfg : GameConfig) (g : Grid) (x : ℕ) : ℕ :=
  match (List.range cfg.gridHeight).find? (fun y => (cellAt g x y).isSome) with
  | some y => cfg.gridHeight - y
  | none => 0

/-- `DemoAI._get_column_heights`. -/
def columnHeights (cfg : GameConfig) (g : Grid) : List ℕ :=
  (List.range cfg.gridWidth).map (columnHeight cfg g)

/-- `DemoAI._count_holes` for one column: the scan with a `found_block`
flag, counting empty cells below the first occupied one. -/
def columnHoles (cfg : GameConfig) (g : Grid) (x : ℕ) : ℕ :=
  ((List.range cfg.gridHeight).foldl
    (fun st y =>
      if (cellAt g x y).isSome then (true, st.2)
      else if st.1 then (st.1, st.2 + 1)
      else st)
    (false, 0)).2

/-- `DemoAI._count_holes`, summed over the columns. -/
def countHoles (cfg : GameConfig) (g : Grid) : ℕ :=
  ((List.range cfg.gridWidth).map (columnHoles cfg g)).sum

/-- `DemoAI._calculate_bumpiness`: sum of `|h[i] - h[i+1]|`. -/
def bumpiness (hs : List ℕ) : ℕ :=
  (List.range (hs.length - 1)).foldl
    (fun acc i => acc + ((hs.getD i 0 : ℤ) - (hs.getD (i + 1) 0 : ℤ)).natAbs) 0

/-- `DemoAI._evaluate_grid_state`: line-clear reward, aggregate-height,
hole and bumpiness penalties, and the near-complete-row bonus (`+50` for
every row with at least `W - 1` filled cells). All terms are integers. -/
def evalGridState (cfg : GameConfig) (g : Grid) : ℤ :=
  let cleared := (fullRows cfg g).length
  let heights := columnHeights cfg g
  (lineClearScoresAI cleared : ℤ)
    - (heights.sum : ℤ)
    - (countHoles cfg g : ℤ) * 500
    - (bumpiness heights : ℤ) * 50
    + 50 * (((List.range cfg.gridHeight).filter
        (fun y => cfg.gridWidth - 1 ≤ (g.getD y []).countP (fun c => c.isSome))).length : ℤ)

/-- The score computed by `DemoAI.evaluate_placement` as a function of the
dereferenced grid value: `⊥` (Python `-inf`) when the rested test piece is
invalid, otherwise the heuristic score of the simulated grid. -/
def evalCore (cfg : GameConfig) (g : Grid) (p : Piece) (x : ℤ) (rot : ℕ) :
    WithBot ℤ :=
  let tp := aiTestPiece cfg g p x rot
  if ¬ isValidInGrid cfg g tp 0 0 then (⊥ : WithBot ℤ)
  else ((evalGridState cfg (simulateLock cfg g tp) : ℤ) : WithBot ℤ)

/-- Read one row object out of the row store. -/
def derefRow (store : List Row) (r : ℕ) : Row :=
  store.getD r []

/-- Read the board contents reachable from a list of row references. -/
def derefGrid (store : List Row) (refs : List ℕ) : List Row :=
  refs.map (derefRow store)

/-- The rows freshly allocated by one `evaluate_placement` call: the
written-to row copies on the valid branch, nothing on the `-inf` branch
(the source returns before copying). -/
def evalAllocates (cfg : GameConfig) (g : Grid) (p : Piece) (x : ℤ)
    (rot : ℕ) : List Row :=
  if ¬ isValidInGrid cfg g (aiTestPiece cfg g p x rot) 0 0 then []
  else simulateLock cfg g (aiTestPiece cfg g p x rot)

/-- `DemoAI.evaluate_placement` over the row store: dereference the board,
run the pure evaluation, and extend the store with the freshly copied
simulated rows. Returns the new store, the score, and the references of
the simulated grid (`None` for an invalid placement). -/
def evaluatePlacement (cfg : GameConfig) (store : List Row) (refs : List ℕ)
    (p : Piece) (x : ℤ) (rot : ℕ) :
    List Row × WithBot ℤ × Option (List ℕ) :=
  let g := derefGrid store refs
  (store ++ evalAllocates cfg g p x rot,
   evalCore cfg g p x rot,
   if ¬ isValidInGrid cfg g (aiTestPiece cfg g p x rot) 0 0 then none
   else some ((List.range (evalAllocates cfg g p x rot).length).map
     (· + store.length)))

/-!
## The `Tetromino` clone operation (`src/tetromino.py` of the package)

The `Tetromino` module imported by the game as `src.tetromino` — the one
whose pieces carry the `powerup_blocks` tag map used by
`TetrisGame.lock_piece` — is not part of the repository snapshot; only its
callers and tests are.  Its `copy` is therefore modelled from the spec.
To make "deep copy" meaningful, the mutable shape matrix and tag map live
in an explicit heap addressed by index, and a piece object holds
references into it. -/

/-- The power-up tag map of a piece: local cell coordinate to kind. -/
abbrev TagMap := List ((ℕ × ℕ) × PowerupKind)

/-- A piece object whose mutable shape matrix and tag map are heap
references. -/
structure PieceObj where
  shapeRef : ℕ
  x : ℤ
  y : ℤ
  tagsRef : ℕ
deriving DecidableEq, Repr

/-- The heap of piece-owned mutable shape matrices and tag maps. -/
structure PieceHeap where
  shapes : List Shape
  tags : List TagMap
deriving DecidableEq, Repr

/-- Modelled from the spec: `Piece.clone()` of §4.2 — "deep-copies shape
matrix, position, and power-up tag map" — for the `Tetromino.copy` of the
absent `src/tetromino.py` package module.  The clone gets fresh heap cells
holding copies of the original's shape matrix and tag map, and the same
position. -/
def cloneTetromino (h : PieceHeap) (p : PieceObj) : PieceHeap × PieceObj :=
  ({ shapes := h.shapes ++ [h.shapes.getD p.shapeRef []],
     tags := h.tags ++ [h.tags.getD p.tagsRef []] },
   { shapeRef := h.shapes.length, x := p.x, y := p.y,
     tagsRef := h.tags.length })

/-- In-place mutation of a stored shape matrix. -/
def writeShape (h : PieceHeap) (r : ℕ) (s : Shape) : PieceHeap :=
  { h with shapes := h.shapes.set r s }

/-- In-place mutation of a stored tag map. -/
def writeTags (h : PieceHeap) (r : ℕ) (t : TagMap) : PieceHeap :=
  { h with tags := h.tags.set r t }

/-!
## Helper lemmas -/

theorem getD_append_of_lt {α : Type} (l l' : List α) (n : ℕ) (d : α)
    (h : n < l.length) : (l ++ l').getD n d = l.getD n d := by
  rw [List.getD_eq_getElem?_getD, List.getD_eq_getElem?_getD,
    List.getElem?_append, if_pos h]

theorem derefRow_append (store ext : List Row) (r : ℕ)
    (h : r < store.length) : derefRow (store ++ ext) r = derefRow store r := by
  unfold derefRow
  exact getD_append_of_lt store ext r [] h

theorem derefGrid_append (store ext : List Row) (refs : List ℕ)
    (h : ∀ r ∈ refs, r < store.length) :
    derefGrid (store ++ ext) refs = derefGrid store refs := by
  unfold derefGrid
  exact List.map_congr_left fun r hr => derefRow_append store ext r (h r hr)

/-!
## C2 — placement validation -/

theorem blockOk_eq_false_iff (cfg : GameConfig) (g : Grid) (phantom : Bool)
    (dx dy : ℤ) (b : ℤ × ℤ) :
    blockOk cfg g phantom dx dy b = false ↔
      (b.1 + dx < 0 ∨ (cfg.gridWidth : ℤ) ≤ b.1 + dx ∨
        (cfg.gridHeight : ℤ) ≤ b.2 + dy) ∨
      (0 ≤ b.2 + dy ∧
        (cellAt g (b.1 + dx).toNat (b.2 + dy).toNat).isSome = true ∧
        phantom = false) := by
  unfold blockOk
  dsimp only
  split_ifs with h1 h2
  · simp [h1]
  · constructor
    · intro hp
      exact Or.inr ⟨h2.1, h2.2, hp⟩
    · intro hor
      rcases hor with hb | ⟨_, _, hp⟩
      · exact absurd hb h1
      · exact hp
  · constructor
    · intro h; cases h
    · intro hor
      rcases hor with hb | hocc
      · exact absurd hb h1
      · exact absurd ⟨hocc.1, hocc.2.1⟩ h2

/-- C2: `is_valid_position` returns false exactly when some occupied cell
of the piece, offset by `(dx, dy)`, is out of `[0, W)` horizontally or at
row `≥ H`, or sits at an on-board row (`y ≥ 0`) on an occupied grid cell
while phantom mode is inactive.  Cells above the board (`y < 0`) never
fail, and phantom mode bypasses only the occupied-cell conjunct, never
the boundary one. -/
theorem is_valid_position_false_iff (cfg : GameConfig) (g : Grid)
    (phantom : Bool) (p : Piece) (dx dy : ℤ) :
    isValidPosition cfg g phantom p dx dy = false ↔
      ∃ b ∈ getBlocks p,
        (b.1 + dx < 0 ∨ (cfg.gridWidth : ℤ) ≤ b.1 + dx ∨
          (cfg.gridHeight : ℤ) ≤ b.2 + dy) ∨
        (0 ≤ b.2 + dy ∧
          (cellAt g (b.1 + dx).toNat (b.2 + dy).toNat).isSome = true ∧
          phantom = false) := by
  unfold isValidPosition
  rw [show ((getBlocks p).all (blockOk cfg g phantom dx dy) = false ↔
      ∃ b ∈ getBlocks p, blockOk cfg g phantom dx dy b = false) by
    simp [List.all_eq_true]]
  constructor
  · rintro ⟨b, hb, hfalse⟩
    exact ⟨b, hb, (blockOk_eq_false_iff cfg g phantom dx dy b).mp hfalse⟩
  · rintro ⟨b, hb, hcond⟩
    exact ⟨b, hb, (blockOk_eq_false_iff cfg g phantom dx dy b).mpr hcond⟩

/-!
## C5 — rotation with wall kicks -/

/-- C5: if no wall-kick offset (tried in the fixed order of `kicks`)
yields a valid placement for the rotated piece, the rotation attempt
returns the piece completely unchanged — the shape is restored
bit-for-bit and the position was never modified; otherwise the rotated
shape is kept and the first valid offset in that order is applied. -/
theorem rotate_piece_revert_or_first_kick (cfg : GameConfig) (g : Grid)
    (phantom : Bool) (p : Piece) :
    ((kicks.find? (fun k => isValidPosition cfg g phantom
        { p with shape := rotateCW p.shape } k.1 k.2) = none) →
      rotatePiece cfg g phantom p = p)
    ∧ (∀ k, kicks.find? (fun k => isValidPosition cfg g phantom
        { p with shape := rotateCW p.shape } k.1 k.2) = some k →
      rotatePiece cfg g phantom p =
        { p with shape := rotateCW p.shape, x := p.x + k.1, y := p.y + k.2 }) := by
  constructor
  · intro h
    simp only [rotatePiece, h]
  · intro k h
    simp only [rotatePiece, h]

/-!
## Concrete fixtures for witnesses and counterexamples -/

/-- A 2-wide, 2-high configuration (grid dimensions are configurable). -/
def cfgW2H2 : GameConfig := { defaultConfig with gridWidth := 2, gridHeight := 2 }

/-- A 1-wide, 2-high configuration. -/
def cfgW1H2 : GameConfig := { defaultConfig with gridWidth := 1, gridHeight := 2 }

/-- A 2×2 square piece at the origin. -/
def oPieceEx : Piece :=
  { shape := [[1, 1], [1, 1]], color := (0, 255, 255), x := 0, y := 0,
    powerupBlocks := [] }

/-- A single-cell piece at the origin. -/
def dotPieceEx : Piece :=
  { shape := [[1]], color := (255, 0, 0), x := 0, y := 0, powerupBlocks := [] }

/-- A fully occupied 2×2 grid. -/
def fullGrid2 : Grid :=
  [[some (255, 0, 0), some (255, 0, 0)], [some (255, 0, 0), some (255, 0, 0)]]

/-- A session value used as a base for concrete scenarios. -/
def baseSession : Session :=
  { grid := [[none, none], [none, none]], currentPiece := none,
    nextPiece := none, holdPiece := none, canHold := true, score := 0,
    level := 1, linesCleared := 0, gameOver := false, comboCount := 0,
    comboMultiplier := 1, comboDisplayTime := 0, activePowerups := fun _ => 0,
    powerupBlocks := [], lockDelayTimer := 0, pieceHasLanded := false,
    fallTime := 0, fallSpeed := 1000, clearingLines := [],
    clearAnimationTime := 0, risingTimer := 0, risingInterval := some 30000,
    risingWarningActive := false, risingAnimationActive := false,
    risingAnimationProgress := 0, risingManualCooldown := 0,
    stateTag := .playing }

/-- C5 witness: on a fully occupied 2×2 board no wall-kick offset
validates, and the rotation attempt leaves the square piece unchanged. -/
theorem rotate_piece_revert_witness :
    (kicks.find? (fun k => isValidPosition cfgW2H2 fullGrid2 false
        { oPieceEx with shape := rotateCW oPieceEx.shape } k.1 k.2) = none)
    ∧ rotatePiece cfgW2H2 fullGrid2 false oPieceEx = oPieceEx :=
  ⟨by decide,
   (rotate_piece_revert_or_first_kick cfgW2H2 fullGrid2 false oPieceEx).1
     (by decide)⟩

/-!
## C4 — rising line into a non-empty top row -/

/-- C4: when the rising-lines feature is active and the top row has an
occupied cell, triggering a rising line transitions the session to
game over and aborts: the grid, the current piece (hence its position),
and the stored power-up blocks are all exactly unchanged. -/
theorem trigger_rise_overflow_aborts (cfg : GameConfig) (newLine : Row)
    (s : Session) (hEnabled : cfg.risingLinesEnabled = true)
    (hMode : cfg.risingMode ≠ .off)
    (hTop : willRiseCauseGameOver cfg s.grid = true) :
    (triggerRisingLine cfg newLine s).stateTag = .gameOver 0
    ∧ (triggerRisingLine cfg newLine s).gameOver = true
    ∧ (triggerRisingLine cfg newLine s).grid = s.grid
    ∧ (triggerRisingLine cfg newLine s).currentPiece = s.currentPiece
    ∧ (triggerRisingLine cfg newLine s).powerupBlocks = s.powerupBlocks := by
  have hguard : ¬ (¬ cfg.risingLinesEnabled = true ∨ cfg.risingMode = .off) := by
    simp [hEnabled, hMode]
  simp only [triggerRisingLine, if_neg hguard, if_pos hTop]
  simp

/-- A session whose top row is occupied and that stores one power-up
block. -/
def sessTopOccupied : Session :=
  { baseSession with
    grid := [[some (0, 255, 255), none], [none, none]],
    powerupBlocks := [(0, 0, .lineBomb)] }

/-- C4 witness: a concrete board with an occupied top row. -/
theorem trigger_rise_overflow_aborts_witness :
    (triggerRisingLine cfgW2H2 [some (80, 80, 80), none] sessTopOccupied).grid
      = [[some (0, 255, 255), none], [none, none]]
    ∧ (triggerRisingLine cfgW2H2 [some (80, 80, 80), none]
        sessTopOccupied).stateTag = .gameOver 0 :=
  ⟨((trigger_rise_overflow_aborts cfgW2H2 [some (80, 80, 80), none]
      sessTopOccupied (by decide) (by decide) (by decide)).2.2.1),
   ((trigger_rise_overflow_aborts cfgW2H2 [some (80, 80, 80), none]
      sessTopOccupied (by decide) (by decide) (by decide)).1)⟩

/-!
## C6 — power-up stacking and harvesting -/

/-- The single pass of `remove_powerups_in_lines` computes the
order-preserving partition of the stored blocks by membership of their
row in the cleared set. -/
theorem removePowerupsInLines_eq (blocks : List PowerupBlock)
    (lines : List ℤ) :
    (removePowerupsInLines blocks lines).1 =
        (blocks.filter (fun b => lines.contains b.2.1)).map (fun b => b.2.2)
      ∧ (removePowerupsInLines blocks lines).2 =
        blocks.filter (fun b => !(lines.contains b.2.1)) := by
  induction blocks with
  | nil => exact ⟨rfl, rfl⟩
  | cons b bs ih =>
    unfold removePowerupsInLines
    by_cases hmem : b.2.1 ∈ lines
    · simpa [hmem] using ih
    · simpa [hmem] using ih

/-- C6: activating an already-active kind adds the configured amount to
the remaining value (two activations before expiry yield `2·d`, never a
reset) and leaves the kind active; harvesting a set of cleared rows
returns exactly the tagged kinds found in those rows, in stored order
with duplicates preserved (hence `K` kind-instances for `K` tagged
blocks), and removes exactly those blocks from the store. -/
theorem powerup_stacking_and_harvest (a : PowerupKind → ℕ) (k : PowerupKind)
    (blocks : List PowerupBlock) (lines : List ℤ) :
    ((activatePowerup defaultConfig a k) k = a k + powerupAmount defaultConfig k)
    ∧ ((activatePowerup defaultConfig (activatePowerup defaultConfig a k) k) k
        = a k + 2 * powerupAmount defaultConfig k)
    ∧ isActive (activatePowerup defaultConfig a k) k = true
    ∧ (removePowerupsInLines blocks lines).1 =
        (blocks.filter (fun b => lines.contains b.2.1)).map (fun b => b.2.2)
    ∧ (removePowerupsInLines blocks lines).1.length =
        (blocks.filter (fun b => lines.contains b.2.1)).length
    ∧ (removePowerupsInLines blocks lines).2 =
        blocks.filter (fun b => !(lines.contains b.2.1)) := by
  have hamt : 0 < powerupAmount defaultConfig k := by
    cases k <;> decide
  have hharvest := removePowerupsInLines_eq blocks lines
  refine ⟨by simp [activatePowerup], by simp [activatePowerup]; omega,
    by simp [isActive, activatePowerup]; omega,
    hharvest.1, by rw [hharvest.1, List.length_map], hharvest.2⟩

/-!
## C7 — deep-copying clone -/

theorem getD_append_self {α : Type} (l : List α) (v d : α) :
    (l ++ [v]).getD l.length d = v := by
  rw [List.getD_eq_getElem?_getD, List.getElem?_append_right (le_refl l.length)]
  simp

theorem getD_set_ne {α : Type} (l : List α) (i j : ℕ) (v d : α)
    (h : i ≠ j) : (l.set i v).getD j d = l.getD j d := by
  rw [List.getD_eq_getElem?_getD, List.getD_eq_getElem?_getD,
    List.getElem?_set_ne h]

/-- C7 (the piece module with the tag map is absent from the snapshot, so
`cloneTetromino` is modelled from the spec): the clone's shape matrix, tag
map and position equal the original's, the clone's heap cells are fresh
(distinct references), and mutation through either object's references
leaves what the other object reads unchanged, in both directions. -/
theorem tetromino_clone_deep_copy (h : PieceHeap) (p : PieceObj)
    (hs : p.shapeRef < h.shapes.length) (ht : p.tagsRef < h.tags.length) :
    ((cloneTetromino h p).1.shapes.getD (cloneTetromino h p).2.shapeRef [] =
        h.shapes.getD p.shapeRef []
      ∧ (cloneTetromino h p).1.tags.getD (cloneTetromino h p).2.tagsRef [] =
        h.tags.getD p.tagsRef []
      ∧ (cloneTetromino h p).2.x = p.x ∧ (cloneTetromino h p).2.y = p.y)
    ∧ ((cloneTetromino h p).2.shapeRef ≠ p.shapeRef
      ∧ (cloneTetromino h p).2.tagsRef ≠ p.tagsRef)
    ∧ (∀ sNew, (writeShape (cloneTetromino h p).1
        (cloneTetromino h p).2.shapeRef sNew).shapes.getD p.shapeRef [] =
        h.shapes.getD p.shapeRef [])
    ∧ (∀ tNew, (writeTags (cloneTetromino h p).1
        (cloneTetromino h p).2.tagsRef tNew).tags.getD p.tagsRef [] =
        h.tags.getD p.tagsRef [])
    ∧ (∀ sNew, (writeShape (cloneTetromino h p).1 p.shapeRef sNew).shapes.getD
        (cloneTetromino h p).2.shapeRef [] = h.shapes.getD p.shapeRef [])
    ∧ (∀ tNew, (writeTags (cloneTetromino h p).1 p.tagsRef tNew).tags.getD
        (cloneTetromino h p).2.tagsRef [] = h.tags.getD p.tagsRef []) := by
  unfold cloneTetromino writeShape writeTags
  dsimp only
  have hsne : h.shapes.length ≠ p.shapeRef := (Nat.ne_of_lt hs).symm
  have htne : h.tags.length ≠ p.tagsRef := (Nat.ne_of_lt ht).symm
  refine ⟨⟨getD_append_self _ _ _, getD_append_self _ _ _, rfl, rfl⟩,
    ⟨hsne, htne⟩, ?_, ?_, ?_, ?_⟩
  · intro sNew
    rw [getD_set_ne _ _ _ _ _ hsne, getD_append_of_lt _ _ _ _ hs]
  · intro tNew
    rw [getD_set_ne _ _ _ _ _ htne, getD_append_of_lt _ _ _ _ ht]
  · intro sNew
    rw [getD_set_ne _ _ _ _ _ (Nat.ne_of_lt hs), getD_append_self]
  · intro tNew
    rw [getD_set_ne _ _ _ _ _ (Nat.ne_of_lt ht), getD_append_self]

/-- A one-piece heap for the clone witness. -/
def pieceHeapEx : PieceHeap :=
  { shapes := [[[1, 1], [1, 1]]], tags := [[((0, 0), .lineBomb)]] }

/-- The piece object owning the cells of `pieceHeapEx`. -/
def pieceObjEx : PieceObj := { shapeRef := 0, x := 3, y := 0, tagsRef := 0 }

/-- C7 witness: cloning a concrete piece yields an equal shape matrix, and
overwriting the clone's shape cell leaves the original's shape matrix
unchanged. -/
theorem tetromino_clone_deep_copy_witness :
    ((cloneTetromino pieceHeapEx pieceObjEx).1.shapes.getD
        (cloneTetromino pieceHeapEx pieceObjEx).2.shapeRef [] =
      pieceHeapEx.shapes.getD pieceObjEx.shapeRef [])
    ∧ ((writeShape (cloneTetromino pieceHeapEx pieceObjEx).1
        (cloneTetromino pieceHeapEx pieceObjEx).2.shapeRef
        [[1]]).shapes.getD pieceObjEx.shapeRef [] =
      pieceHeapEx.shapes.getD pieceObjEx.shapeRef []) :=
  ⟨(tetromino_clone_deep_copy pieceHeapEx pieceObjEx (by decide)
      (by decide)).1.1,
   (tetromino_clone_deep_copy pieceHeapEx pieceObjEx (by decide)
      (by decide)).2.2.1 [[1]]⟩

/-!
## C8 — game over to demo transition -/

/-- C8: both entry paths into `GameOverState` (`spawn_new_piece` and
`trigger_rising_line`) set `game_over` first, and `TetrisGame.update`
returns immediately while `game_over` is set — so no sequence of per-tick
updates, whatever elapsed times they carry and whatever the other states'
update methods do, ever runs `GameOverState.update`: the session stays
exactly as it is and never reaches the Demo state.  Yet
`GameOverState.update` itself, were it reached with accumulated time at
the configured delay, would reset the session and enter Demo — which is
what the spec (and the state's own documentation) promise. -/
theorem game_over_tick_never_reaches_demo (cfg : GameConfig)
    (hooks : StateTag → ℕ → Session → Session) (newLine : Row)
    (pA pB : Piece) (s : Session) (hgo : s.gameOver = true) :
    (∀ deltas : List ℕ,
      deltas.foldl (fun st d => tickUpdate cfg hooks newLine pA pB d st) s = s)
    ∧ (∀ delta t : ℕ, cfg.demoAfterGameOver = true →
        cfg.demoGameOverDelay ≤ t + delta →
        gameOverStateUpdate cfg pA pB delta t s =
          { resetGame cfg pA pB s with stateTag := .demo 0 }) := by
  constructor
  · have hstep : ∀ d : ℕ, tickUpdate cfg hooks newLine pA pB d s = s := by
      intro d
      simp [tickUpdate, hgo]
    intro deltas
    induction deltas with
    | nil => rfl
    | cons d ds ih =>
      rw [List.foldl_cons, hstep d]
      exact ih
  · intro delta t h1 h2
    unfold gameOverStateUpdate
    rw [if_pos h1]
    dsimp only
    rw [if_pos h2]

/-- A session in the game-over state, as both entry paths produce it
(`game_over = True` and a fresh `GameOverState`). -/
def sessGameOverEx : Session :=
  { baseSession with gameOver := true, stateTag := .gameOver 0 }

/-- C8 witness: with the default configuration (auto-demo on, 3000 ms
delay), a tick of 3000 ms leaves the game-over session exactly unchanged,
although a direct `GameOverState.update` call with the same elapsed time
would have entered Demo. -/
theorem game_over_tick_never_reaches_demo_witness :
    (([3000] : List ℕ).foldl
      (fun st d => tickUpdate defaultConfig (fun _ _ s => s) [] dotPieceEx
        dotPieceEx d st) sessGameOverEx = sessGameOverEx)
    ∧ (gameOverStateUpdate defaultConfig dotPieceEx dotPieceEx 3000 0
        sessGameOverEx).stateTag = .demo 0 :=
  ⟨(game_over_tick_never_reaches_demo defaultConfig (fun _ _ s => s) []
      dotPieceEx dotPieceEx sessGameOverEx rfl).1 [3000],
   by
    rw [(game_over_tick_never_reaches_demo defaultConfig (fun _ _ s => s) []
      dotPieceEx dotPieceEx sessGameOverEx rfl).2 3000 0 rfl (by decide)]⟩

/-!
## C9 — purity and idempotence of the AI evaluation -/

/-- C9: evaluating a placement twice with the same board references,
piece, column and rotation yields the same score, and neither call
changes any board row reachable from the input references — the
evaluation only appends fresh row copies to the store (the input piece is
passed by value: the source writes only to its own `piece.copy()`, whose
fields it rebinds without mutating the original's lists). -/
theorem ai_evaluate_idempotent_pure (cfg : GameConfig) (store : List Row)
    (refs : List ℕ) (p : Piece) (x : ℤ) (rot : ℕ)
    (href : ∀ r ∈ refs, r < store.length) :
    ((evaluatePlacement cfg (evaluatePlacement cfg store refs p x rot).1
        refs p x rot).2.1 = (evaluatePlacement cfg store refs p x rot).2.1)
    ∧ derefGrid (evaluatePlacement cfg store refs p x rot).1 refs =
        derefGrid store refs
    ∧ derefGrid (evaluatePlacement cfg
        (evaluatePlacement cfg store refs p x rot).1 refs p x rot).1 refs =
        derefGrid store refs := by
  have h1 : (evaluatePlacement cfg store refs p x rot).1 =
      store ++ evalAllocates cfg (derefGrid store refs) p x rot := rfl
  have hd1 : derefGrid (evaluatePlacement cfg store refs p x rot).1 refs =
      derefGrid store refs := by
    rw [h1]
    exact derefGrid_append _ _ _ href
  have href1 : ∀ r ∈ refs, r < (evaluatePlacement cfg store refs p x rot).1.length := by
    intro r hr
    rw [h1, List.length_append]
    exact Nat.lt_of_lt_of_le (href r hr) (Nat.le_add_right _ _)
  have h2 : (evaluatePlacement cfg (evaluatePlacement cfg store refs p x rot).1
      refs p x rot).1 =
      (evaluatePlacement cfg store refs p x rot).1 ++
        evalAllocates cfg
          (derefGrid (evaluatePlacement cfg store refs p x rot).1 refs)
          p x rot := rfl
  refine ⟨?_, hd1, ?_⟩
  · show evalCore cfg
      (derefGrid (evaluatePlacement cfg store refs p x rot).1 refs) p x rot =
      evalCore cfg (derefGrid store refs) p x rot
    rw [hd1]
  · rw [h2, derefGrid_append _ _ _ href1, hd1]

/-- C9 witness: a concrete evaluation on a 2×2 board, run twice. -/
theorem ai_evaluate_idempotent_pure_witness :
    ((evaluatePlacement cfgW2H2
        (evaluatePlacement cfgW2H2 [[none, none], [none, none]] [0, 1]
          oPieceEx 0 0).1 [0, 1] oPieceEx 0 0).2.1 =
      (evaluatePlacement cfgW2H2 [[none, none], [none, none]] [0, 1]
        oPieceEx 0 0).2.1)
    ∧ derefGrid (evaluatePlacement cfgW2H2 [[none, none], [none, none]]
        [0, 1] oPieceEx 0 0).1 [0, 1] =
      derefGrid [[none, none], [none, none]] [0, 1] :=
  ⟨(ai_evaluate_idempotent_pure cfgW2H2 [[none, none], [none, none]] [0, 1]
      oPieceEx 0 0 (by decide)).1,
   (ai_evaluate_idempotent_pure cfgW2H2 [[none, none], [none, none]] [0, 1]
      oPieceEx 0 0 (by decide)).2.1⟩

/-!
## C10 — phantom-mode locking -/

/-- The in-board cell coordinates written by the lock transfer loop, in
loop order: the blocks of the piece landing at `grid_y ≥ 0`. -/
def pieceWrites (p : Piece) : List (ℕ × ℕ) :=
  (localBlocks p).filterMap fun l =>
    if 0 ≤ p.y + l.2 then some ((p.x + l.1).toNat, (p.y + l.2).toNat)
    else none

theorem transferGrid_eq_foldl_writes (p : Piece) (g : Grid) :
    transferGrid p g =
      (pieceWrites p).foldl (fun acc w => setCell acc w.1 w.2 p.color) g := by
  unfold transferGrid pieceWrites
  generalize localBlocks p = L
  induction L generalizing g with
  | nil => rfl
  | cons l ls ih =>
    by_cases hy : 0 ≤ p.y + l.2
    · rw [List.filterMap_cons, if_pos hy]
      simpa [hy] using ih (setCell g (p.x + l.1).toNat (p.y + l.2).toNat p.color)
    · rw [List.filterMap_cons, if_neg hy]
      simpa [hy] using ih g

theorem length_setCell (g : Grid) (x y : ℕ) (c : Color) :
    (setCell g x y c).length = g.length :=
  List.length_set g y _

theorem getD_mem_of_lt {α : Type} (l : List α) (n : ℕ) (d : α)
    (h : n < l.length) : l.getD n d ∈ l := by
  rw [List.getD_eq_getElem l d h]
  exact List.getElem_mem h

theorem rows_setCell (g : Grid) (x y : ℕ) (c : Color) (W : ℕ)
    (hr : ∀ row ∈ g, row.length = W) :
    ∀ row ∈ setCell g x y c, row.length = W := by
  intro row hrow
  by_cases hy : y < g.length
  · rcases List.mem_or_eq_of_mem_set hrow with hmem | heq
    · exact hr row hmem
    · subst heq
      rw [List.length_set]
      exact hr _ (getD_mem_of_lt g y [] hy)
  · unfold setCell at hrow
    rw [List.set_eq_of_length_le (by omega)] at hrow
    exact hr row hrow

theorem getD_set_self {α : Type} (l : List α) (i : ℕ) (v d : α)
    (h : i < l.length) : (l.set i v).getD i d = v := by
  rw [List.getD_eq_getElem?_getD, List.getElem?_set_eq_of_lt _ h]
  rfl

theorem cellAt_setCell_self (g : Grid) (x y : ℕ) (c : Color)
    (hy : y < g.length) (hx : x < (g.getD y []).length) :
    cellAt (setCell g x y c) x y = some c := by
  unfold cellAt setCell
  rw [getD_set_self g y ((g.getD y []).set x (some c)) [] hy,
    getD_set_self (g.getD y []) x (some c) none hx]

theorem cellAt_setCell_ne (g : Grid) (x y x' y' : ℕ) (c : Color)
    (hne : ¬(x = x' ∧ y = y')) :
    cellAt (setCell g x y c) x' y' = cellAt g x' y' := by
  unfold cellAt setCell
  by_cases hyy : y = y'
  · subst hyy
    have hxx : x ≠ x' := fun h => hne ⟨h, rfl⟩
    by_cases hy : y < g.length
    · rw [getD_set_self g y ((g.getD y []).set x (some c)) [] hy]
      exact getD_set_ne _ _ _ _ _ hxx
    · rw [List.set_eq_of_length_le (le_of_not_lt hy)]
  · rw [getD_set_ne _ _ _ _ _ hyy]

theorem foldl_setCell_cellAt (c : Color) (W H : ℕ) (L : List (ℕ × ℕ)) :
    ∀ (g : Grid), g.length = H → (∀ row ∈ g, row.length = W) →
      (∀ w ∈ L, w.1 < W ∧ w.2 < H) →
      ∀ x y : ℕ,
        cellAt (L.foldl (fun acc w => setCell acc w.1 w.2 c) g) x y =
          if (x, y) ∈ L then some c else cellAt g x y := by
  induction L with
  | nil => intro g _ _ _ x y; simp
  | cons w ws ih =>
    intro g hg hr hL x y
    rw [List.foldl_cons]
    have hwW : w.1 < W := (hL w (List.mem_cons_self w ws)).1
    have hwH : w.2 < H := (hL w (List.mem_cons_self w ws)).2
    have hg' : (setCell g w.1 w.2 c).length = H := by
      rw [length_setCell]; exact hg
    have hr' : ∀ row ∈ setCell g w.1 w.2 c, row.length = W :=
      rows_setCell g w.1 w.2 c W hr
    have hL' : ∀ v ∈ ws, v.1 < W ∧ v.2 < H :=
      fun v hv => hL v (List.mem_cons_of_mem w hv)
    rw [ih (setCell g w.1 w.2 c) hg' hr' hL' x y]
    by_cases hmem : (x, y) ∈ ws
    · simp [hmem]
    · by_cases heq : (x, y) = w
      · subst heq
        rw [if_neg hmem, if_pos (List.mem_cons_self _ _)]
        refine cellAt_setCell_self g x y c (by rw [hg]; exact hwH) ?_
        rw [hr _ (getD_mem_of_lt g y [] (by rw [hg]; exact hwH))]
        exact hwW
      · rw [if_neg hmem, if_neg (by simp [heq, hmem]),
          cellAt_setCell_ne g w.1 w.2 x y c
            (fun hc => heq (by rw [← hc.1, ← hc.2]))]

theorem transferGrid_cellAt (p : Piece) (g : Grid) (W H : ℕ)
    (hg : g.length = H) (hr : ∀ row ∈ g, row.length = W)
    (hb : ∀ w ∈ pieceWrites p, w.1 < W ∧ w.2 < H) (x y : ℕ) :
    cellAt (transferGrid p g) x y =
      if (x, y) ∈ pieceWrites p then some p.color else cellAt g x y := by
  rw [transferGrid_eq_foldl_writes]
  exact foldl_setCell_cellAt p.color W H (pieceWrites p) g hg hr hb x y

theorem mem_pieceWrites_iff (p : Piece) (x y : ℕ) :
    (x, y) ∈ pieceWrites p ↔
      ∃ b ∈ getBlocks p, 0 ≤ b.2 ∧ b.1.toNat = x ∧ b.2.toNat = y := by
  unfold pieceWrites getBlocks
  rw [List.mem_filterMap]
  constructor
  · rintro ⟨l, hl, hfl⟩
    by_cases hy : 0 ≤ p.y + l.2
    · rw [if_pos hy] at hfl
      refine ⟨(p.x + l.1, p.y + l.2), List.mem_map_of_mem _ hl, hy, ?_, ?_⟩
      · exact congrArg Prod.fst (Option.some.inj hfl)
      · exact congrArg Prod.snd (Option.some.inj hfl)
    · rw [if_neg hy] at hfl
      cases hfl
  · rintro ⟨b, hb, hy, hx1, hy1⟩
    rcases List.mem_map.mp hb with ⟨l, hl, hbl⟩
    refine ⟨l, hl, ?_⟩
    rw [if_pos (by rw [← hbl] at hy; exact hy)]
    rw [← hbl] at hx1 hy1
    rw [show ((p.x + l.1).toNat, (p.y + l.2).toNat) = (x, y) by
      rw [← hx1, ← hy1]]

theorem mem_of_lookup_eq_some {α β : Type} [BEq α] [LawfulBEq α]
    {l : List (α × β)} {a : α} {b : β} (h : l.lookup a = some b) :
    (a, b) ∈ l := by
  induction l with
  | nil => cases h
  | cons x xs ih =>
    rw [List.lookup] at h
    cases hax : a == x.1 with
    | true =>
      rw [hax] at h
      simp only [] at h
      have ha : a = x.1 := eq_of_beq hax
      rw [List.mem_cons]
      left
      rw [ha, ← Option.some.inj h]
    | false =>
      rw [hax] at h
      simp only [] at h
      exact List.mem_cons_of_mem x (ih h)

theorem mem_transferPowerups (p : Piece) (blocks : List PowerupBlock) :
    ∀ b ∈ transferPowerups p blocks,
      b ∈ blocks ∨ ∃ t ∈ p.powerupBlocks, b.2.2 = t.2 := by
  unfold transferPowerups
  generalize localBlocks p = L
  induction L generalizing blocks with
  | nil => exact fun b hb => Or.inl hb
  | cons l ls ih =>
    intro b hb
    rw [List.foldl_cons] at hb
    by_cases hy : 0 ≤ p.y + l.2
    · rw [if_pos hy] at hb
      cases hlk : p.powerupBlocks.lookup l with
      | none =>
        rw [hlk] at hb
        exact ih blocks b hb
      | some k =>
        rw [hlk] at hb
        rcases ih _ b hb with hmem | hex
        · rcases List.mem_append.mp hmem with hmem' | hmem'
          · exact Or.inl hmem'
          · rcases List.mem_singleton.mp hmem' with rfl
            exact Or.inr ⟨(l, k), mem_of_lookup_eq_some hlk, rfl⟩
        · exact Or.inr hex
    · rw [if_neg hy] at hb
      exact ih blocks b hb

theorem foldl_activate_ne (cfg : GameConfig) (ks : List PowerupKind)
    (k : PowerupKind) (h : ∀ k' ∈ ks, k' ≠ k) :
    ∀ a : PowerupKind → ℕ, (ks.foldl (activatePowerup cfg) a) k = a k := by
  induction ks with
  | nil => exact fun a => rfl
  | cons k' ks ih =>
    intro a
    rw [List.foldl_cons,
      ih (fun x hx => h x (List.mem_cons_of_mem k' hx)) (activatePowerup cfg a k')]
    unfold activatePowerup
    rw [if_neg (fun he => h k' (List.mem_cons_self k' ks) he.symm)]

theorem clearLines_grid (cfg : GameConfig) (s : Session) :
    (clearLines cfg s).grid = s.grid := by
  simp only [clearLines]
  split_ifs <;> rfl

theorem spawnNewPiece_grid (cfg : GameConfig) (pN : Piece) (s : Session) :
    (spawnNewPiece cfg pN s).grid = s.grid := by
  unfold spawnNewPiece
  dsimp only
  split
  · split_ifs <;> rfl
  · rfl

theorem spawnNewPiece_activePowerups (cfg : GameConfig) (pN : Piece)
    (s : Session) :
    (spawnNewPiece cfg pN s).activePowerups = s.activePowerups := by
  unfold spawnNewPiece
  dsimp only
  split
  · split_ifs <;> rfl
  · rfl

theorem clearLines_activePowerups_phantom (cfg : GameConfig) (s : Session)
    (hnb : ∀ b ∈ s.powerupBlocks, b.2.2 ≠ PowerupKind.phantomMode) :
    (clearLines cfg s).activePowerups .phantomMode =
      s.activePowerups .phantomMode := by
  simp only [clearLines]
  split_ifs with hE <;>
    first
    | rfl
    | · refine foldl_activate_ne cfg _ _ ?_ s.activePowerups
        intro k' hk'
        rw [(removePowerupsInLines_eq _ _).1] at hk'
        rcases List.mem_map.mp hk' with ⟨blk, hblk, rfl⟩
        exact hnb blk (List.mem_of_mem_filter hblk)

theorem usePowerup_phantom_val (a : PowerupKind → ℕ)
    (h : a .phantomMode ≠ 0) :
    (usePowerup defaultConfig a .phantomMode).1 .phantomMode =
      a .phantomMode - 1 := by
  unfold usePowerup
  rw [if_neg h]
  simp [defaultConfig, defaultPowerUpTypes]

theorem lockPiece_grid (cfg : GameConfig) (pN : Piece) (s : Session)
    (p : Piece) (hcur : s.currentPiece = some p) :
    (lockPiece cfg pN s).grid = transferGrid p s.grid := by
  simp only [lockPiece, hcur]
  split_ifs <;> simp [spawnNewPiece_grid, clearLines_grid]

theorem comboReset_activePowerups (t : Session) :
    ({ t with comboCount := 0, comboMultiplier := 1 } : Session).activePowerups = t.activePowerups := rfl

theorem lockPiece_activePowerups_phantom (pN : Piece) (s : Session)
    (p : Piece) (hcur : s.currentPiece = some p)
    (hph : s.activePowerups .phantomMode ≠ 0)
    (hnb : ∀ b ∈ s.powerupBlocks, b.2.2 ≠ PowerupKind.phantomMode)
    (hnp : ∀ t ∈ p.powerupBlocks, t.2 ≠ PowerupKind.phantomMode) :
    (lockPiece defaultConfig pN s).activePowerups .phantomMode =
      s.activePowerups .phantomMode - 1 := by
  have hact : isActive s.activePowerups .phantomMode = true := by
    simp [isActive, hph]
  have hnb' : ∀ b ∈ transferPowerups p s.powerupBlocks,
      b.2.2 ≠ PowerupKind.phantomMode := by
    intro b hbm
    rcases mem_transferPowerups p s.powerupBlocks b hbm with hmem | ⟨t, ht, he⟩
    · exact hnb b hmem
    · rw [he]
      exact hnp t ht
  simp only [lockPiece, hcur, hact, if_true]
  split_ifs with hcl
  · rw [spawnNewPiece_activePowerups, comboReset_activePowerups,
      clearLines_activePowerups_phantom _ _ hnb']
    exact usePowerup_phantom_val s.activePowerups hph
  · rw [clearLines_activePowerups_phantom _ _ hnb']
    exact usePowerup_phantom_val s.activePowerups hph

/-- C10 (implicit behavior of `lock_piece` under phantom mode): locking
writes the piece color into every piece cell at `y ≥ 0` — including cells
where the grid was already occupied, whose previous content is discarded
— leaves all other cells unchanged, and consumes exactly one phantom-mode
use, with no condition that any cell actually overlapped an occupied
one. -/
theorem phantom_lock_overwrites_and_consumes (s : Session) (p pN : Piece)
    (hcur : s.currentPiece = some p)
    (hph : s.activePowerups .phantomMode ≠ 0)
    (hg : s.grid.length = defaultConfig.gridHeight)
    (hr : ∀ row ∈ s.grid, row.length = defaultConfig.gridWidth)
    (hb : ∀ b ∈ getBlocks p, 0 ≤ b.1 ∧
      b.1 < (defaultConfig.gridWidth : ℤ) ∧
      b.2 < (defaultConfig.gridHeight : ℤ))
    (hnb : ∀ b ∈ s.powerupBlocks, b.2.2 ≠ PowerupKind.phantomMode)
    (hnp : ∀ t ∈ p.powerupBlocks, t.2 ≠ PowerupKind.phantomMode) :
    (∀ b ∈ getBlocks p, 0 ≤ b.2 →
      cellAt (lockPiece defaultConfig pN s).grid b.1.toNat b.2.toNat =
        some p.color)
    ∧ (∀ x y : ℕ,
        ¬ (∃ b ∈ getBlocks p, 0 ≤ b.2 ∧ b.1.toNat = x ∧ b.2.toNat = y) →
        cellAt (lockPiece defaultConfig pN s).grid x y = cellAt s.grid x y)
    ∧ (lockPiece defaultConfig pN s).activePowerups .phantomMode =
        s.activePowerups .phantomMode - 1 := by
  have hbw : ∀ w ∈ pieceWrites p,
      w.1 < defaultConfig.gridWidth ∧ w.2 < defaultConfig.gridHeight := by
    intro w hw
    rcases w with ⟨wx, wy⟩
    rcases (mem_pieceWrites_iff p wx wy).mp hw with ⟨b, hbm, hy0, hx1, hy1⟩
    rcases hb b hbm with ⟨h1, h2, h3⟩
    exact ⟨by omega, by omega⟩
  refine ⟨?_, ?_, lockPiece_activePowerups_phantom pN s p hcur hph hnb hnp⟩
  · intro b hbm hy0
    rw [lockPiece_grid defaultConfig pN s p hcur,
      transferGrid_cellAt p s.grid _ _ hg hr hbw,
      if_pos ((mem_pieceWrites_iff p _ _).mpr ⟨b, hbm, hy0, rfl, rfl⟩)]
  · intro x y hnot
    rw [lockPiece_grid defaultConfig pN s p hcur,
      transferGrid_cellAt p s.grid _ _ hg hr hbw,
      if_neg (fun hmem => hnot ((mem_pieceWrites_iff p x y).mp hmem))]

/-- A fully occupied default-size board with the square piece live at the
origin and phantom mode active with 2 uses remaining. -/
def sessPhantomEx : Session :=
  { baseSession with
    grid := List.replicate 20 (List.replicate 10 (some (255, 0, 0))),
    currentPiece := some oPieceEx,
    activePowerups := fun k => if k = .phantomMode then 2 else 0 }

/-- C10 witness: locking the square piece onto a fully occupied board with
phantom mode active overwrites the occupied cell under its top-left block
with the piece color and consumes exactly one phantom use (2 → 1). -/
theorem phantom_lock_overwrites_and_consumes_witness :
    cellAt (lockPiece defaultConfig dotPieceEx sessPhantomEx).grid
        ((0 : ℤ)).toNat ((0 : ℤ)).toNat = some oPieceEx.color
    ∧ (lockPiece defaultConfig dotPieceEx sessPhantomEx).activePowerups
        .phantomMode = sessPhantomEx.activePowerups .phantomMode - 1 :=
  ⟨(phantom_lock_overwrites_and_consumes sessPhantomEx oPieceEx dotPieceEx
      rfl (by decide) (by decide) (by decide) (by decide) (by decide)
      (by decide)).1 ((0 : ℤ), (0 : ℤ)) (by decide) (by decide),
   (phantom_lock_overwrites_and_consumes sessPhantomEx oPieceEx dotPieceEx
      rfl (by decide) (by decide) (by decide) (by decide) (by decide)
      (by decide)).2.2⟩

/-!
## C3 — combo scoring -/

theorem clearLines_of_no_fullRows (cfg : GameConfig) (s : Session)
    (h : fullRows cfg s.grid = []) : clearLines cfg s = s := by
  simp [clearLines, h]

theorem spawnNewPiece_comboCount (cfg : GameConfig) (pN : Piece)
    (s : Session) : (spawnNewPiece cfg pN s).comboCount = s.comboCount := by
  unfold spawnNewPiece
  dsimp only
  split
  · split_ifs <;> rfl
  · rfl

theorem spawnNewPiece_comboMultiplier (cfg : GameConfig) (pN : Piece)
    (s : Session) :
    (spawnNewPiece cfg pN s).comboMultiplier = s.comboMultiplier := by
  unfold spawnNewPiece
  dsimp only
  split
  · split_ifs <;> rfl
  · rfl

/-- C3: a lock that clears `n` full rows (`1 ≤ n ≤ 4`) at level `L` with
combo count `c` before the clear awards
`⌊LINE_SCORES[n] · L · m⌋` points — doubled when the score amplifier is
active — where `m = min(1 + c, 5)` for `c > 0` and `m = 1` for `c = 0`
(the default configuration's float multiplier arithmetic is exact integer
arithmetic); so the first clear of a chain uses multiplier exactly 1, the
second exactly 2, the stored multiplier never exceeds 5, the combo count
increments, and a non-clearing lock resets the combo count to 0 and the
multiplier to 1. -/
theorem clear_lines_combo_scoring :
    (∀ s : Session,
      1 ≤ (fullRows defaultConfig s.grid).length →
      (fullRows defaultConfig s.grid).length ≤ 4 →
      ((clearLines defaultConfig s).score = s.score +
          (if isActive s.activePowerups .scoreAmplifier then 2 else 1) *
          (defaultConfig.lineScores (fullRows defaultConfig s.grid).length *
            s.level *
            (if 0 < s.comboCount then min (1 + s.comboCount) 5 else 1))
        ∧ (clearLines defaultConfig s).comboMultiplier =
            (if 0 < s.comboCount then min (1 + s.comboCount) 5 else 1)
        ∧ (clearLines defaultConfig s).comboMultiplier ≤ 5
        ∧ (s.comboCount = 0 → (clearLines defaultConfig s).comboMultiplier = 1)
        ∧ (s.comboCount = 1 → (clearLines defaultConfig s).comboMultiplier = 2)
        ∧ (clearLines defaultConfig s).comboCount = s.comboCount + 1))
    ∧ (∀ (p pN : Piece) (s : Session), s.currentPiece = some p →
        s.clearingLines = [] →
        fullRows defaultConfig (transferGrid p s.grid) = [] →
        ((lockPiece defaultConfig pN s).comboCount = 0
          ∧ (lockPiece defaultConfig pN s).comboMultiplier = 1)) := by
  constructor
  · intro s h1 h4
    have hne : ¬ (fullRows defaultConfig s.grid).isEmpty = true := by
      intro hE
      rw [List.isEmpty_iff] at hE
      rw [hE] at h1
      simp at h1
    simp only [clearLines, if_neg hne]
    refine ⟨?_, ?_, ?_, ?_, ?_, ?_⟩
    · split_ifs <;> simp [defaultConfig, mul_one] <;> ring
    · split_ifs <;> simp [defaultConfig, mul_one]
    · split_ifs with hc
      · simp [defaultConfig]
      · simp
    · intro hc0
      simp [hc0]
    · intro hc1
      simp [hc1, defaultConfig]
    · trivial
  · intro p pN s hcur hclr hfull
    simp only [lockPiece, hcur]
    rw [clearLines_of_no_fullRows]
    · dsimp only
      rw [hclr]
      simp only [List.isEmpty_nil, if_true]
      constructor
      · rw [spawnNewPiece_comboCount]
      · rw [spawnNewPiece_comboMultiplier]
    · exact hfull

/-- A full default-width board row. -/
def fullRowEx : Row := List.replicate 10 (some (0, 255, 0))

/-- A session with two full rows and an ongoing combo (count 1). -/
def sessFullRowsEx : Session :=
  { baseSession with grid := [fullRowEx, fullRowEx], comboCount := 1 }

/-- A session whose live single-cell piece locks without clearing. -/
def sessNoClearEx : Session :=
  { baseSession with
    currentPiece := some dotPieceEx,
    comboCount := 3,
    comboMultiplier := 4 }

/-- C3 witness: a concrete double clear at combo count 1 (second clear of
the chain: multiplier 2), and a concrete non-clearing lock resetting the
combo. -/
theorem clear_lines_combo_scoring_witness :
    ((clearLines defaultConfig sessFullRowsEx).score = sessFullRowsEx.score +
      (if isActive sessFullRowsEx.activePowerups .scoreAmplifier then 2 else 1) *
      (defaultConfig.lineScores (fullRows defaultConfig sessFullRowsEx.grid).length *
        sessFullRowsEx.level *
        (if 0 < sessFullRowsEx.comboCount
          then min (1 + sessFullRowsEx.comboCount) 5 else 1)))
    ∧ (sessFullRowsEx.comboCount = 1 →
        (clearLines defaultConfig sessFullRowsEx).comboMultiplier = 2)
    ∧ (lockPiece defaultConfig dotPieceEx sessNoClearEx).comboCount = 0
    ∧ (lockPiece defaultConfig dotPieceEx sessNoClearEx).comboMultiplier = 1 :=
  ⟨(clear_lines_combo_scoring.1 sessFullRowsEx (by decide) (by decide)).1,
   (clear_lines_combo_scoring.1 sessFullRowsEx (by decide) (by decide)).2.2.2.2.1,
   (clear_lines_combo_scoring.2 dotPieceEx dotPieceEx sessNoClearEx rfl rfl
     (by decide)).1,
   (clear_lines_combo_scoring.2 dotPieceEx dotPieceEx sessNoClearEx rfl rfl
     (by decide)).2⟩

/-!
## C1 — the line-clear grid rebuild -/

theorem range_map_getD {α : Type} (l : List α) (d : α) :
    (List.range l.length).map (fun i => l.getD i d) = l := by
  induction l with
  | nil => rfl
  | cons x xs ih =>
    rw [show (x :: xs).length = xs.length + 1 from rfl,
      List.range_succ_eq_map, List.map_cons, List.map_map]
    have hcomp : ((fun i => (x :: xs).getD i d) ∘ (fun i => i + 1)) =
        fun i => xs.getD i d := by
      funext i
      simp [List.getD_cons_succ]
    rw [hcomp, ih, List.getD_cons_zero]

theorem countP_or_disjoint (l : List ℕ) (a b : ℕ → Bool)
    (h : ∀ x ∈ l, ¬(a x = true ∧ b x = true)) :
    l.countP (fun x => a x || b x) = l.countP a + l.countP b := by
  induction l with
  | nil => simp
  | cons x xs ih =>
    rw [List.countP_cons, List.countP_cons, List.countP_cons,
      ih (fun y hy => h y (List.mem_cons_of_mem x hy))]
    have hx := h x (List.mem_cons_self x xs)
    by_cases ha : a x = true <;> by_cases hb : b x = true <;>
      simp [ha, hb] at hx ⊢ <;> omega

theorem countP_beq_range (s r : ℕ) :
    (List.range r).countP (fun y => y == s) = if s < r then 1 else 0 := by
  induction r with
  | zero => simp
  | succ n ih =>
    rw [List.range_succ, List.countP_append, ih]
    have hone : List.countP (fun y => y == s) [n] =
        if n = s then 1 else 0 := by
      by_cases hns : n = s <;> simp [List.countP_cons, hns]
    rw [hone]
    split_ifs <;> omega

theorem countP_range_contains (S : List ℕ) (hS : S.Nodup) (r : ℕ) :
    (List.range r).countP (fun y => S.contains y) =
      S.countP (fun a => decide (a < r)) := by
  induction S with
  | nil => simp
  | cons s0 Srest ih =>
    have hmem : s0 ∉ Srest := (List.nodup_cons.mp hS).1
    have hnd : Srest.Nodup := (List.nodup_cons.mp hS).2
    have hpred : ∀ y ∈ List.range r,
        ((s0 :: Srest).contains y = true ↔
          ((fun z => (z == s0) || Srest.contains z) y = true)) := by
      intro y _
      simp [List.contains_cons]
    rw [List.countP_congr hpred,
      countP_or_disjoint _ _ _ (by
        intro y _ hc
        exact hmem ((eq_of_beq hc.1) ▸ (by simpa using hc.2))),
      countP_beq_range, ih hnd, List.countP_cons]
    simp only [decide_eq_true_eq]
    split_ifs <;> omega

theorem filter_range_get (P : ℕ → Bool) (H r : ℕ) (hr : r < H)
    (hP : P r = true) :
    ((List.range H).filter P)[((List.range r).filter P).length]? = some r := by
  induction H with
  | zero => omega
  | succ n ih =>
    rw [List.range_succ, List.filter_append]
    by_cases hrn : r < n
    · have hx := ih hrn
      have hlt : ((List.range r).filter P).length <
          ((List.range n).filter P).length := (List.getElem?_eq_some.mp hx).1
      rw [List.getElem?_append_left hlt]
      exact hx
    · have hrn' : r = n := by omega
      subst hrn'
      rw [show List.filter P [r] = [r] by simp [hP],
        List.getElem?_append_right (le_refl _)]
      simp

theorem length_filter_not_contains (S : List ℕ) (hS : S.Nodup) (n : ℕ) :
    ((List.range n).filter (fun y => !(S.contains y))).length =
      n - S.countP (fun a => decide (a < n)) := by
  have h1 : ((List.range n).filter (fun y => !(S.contains y))).length =
      (List.range n).countP (fun y => !(S.contains y)) :=
    (List.countP_eq_length_filter _ _).symm
  rw [h1]
  have h2 := List.length_eq_countP_add_countP
    (fun y => S.contains y) (List.range n)
  have h3 : (List.range n).countP
      (fun a => decide ¬((fun y => S.contains y) a = true)) =
      (List.range n).countP (fun y => !(S.contains y)) := by
    apply List.countP_congr
    intro x _
    simp
  rw [countP_range_contains S hS n, List.length_range, h3] at h2
  omega

/-- C1 (amended): for a well-formed `H × W` grid and a duplicate-free set
`S` of row indices below `H`, the line-clear rebuild produces exactly `H`
rows of `W` cells: `|S|` fully empty rows on top, followed by the rows not
in `S` in their original top-to-bottom order, each non-cleared row `r`
landing at index `r + |{s ∈ S | s > r}|` — that is, shifted down by the
count of cleared rows that were *below* it. -/
theorem remove_rows_rebuild (cfg : GameConfig) (g : Grid) (S : List ℕ)
    (hg : g.length = cfg.gridHeight)
    (hrows : ∀ row ∈ g, row.length = cfg.gridWidth)
    (hS : S.Nodup) (hSlt : ∀ a ∈ S, a < cfg.gridHeight) :
    (finishClearingAnimation cfg g S).length = cfg.gridHeight
    ∧ (∀ row ∈ finishClearingAnimation cfg g S, row.length = cfg.gridWidth)
    ∧ (finishClearingAnimation cfg g S).take S.length =
        List.replicate S.length (List.replicate cfg.gridWidth none)
    ∧ (finishClearingAnimation cfg g S).drop S.length =
        ((List.range cfg.gridHeight).filter
          (fun y => !(S.contains y))).map (fun y => g.getD y [])
    ∧ (∀ r : ℕ, r < cfg.gridHeight → r ∉ S →
        (finishClearingAnimation cfg g S)[r +
          S.countP (fun a => decide (r < a))]? = g[r]?) := by
  by_cases hSe : S.isEmpty = true
  · obtain rfl : S = [] := List.isEmpty_iff.mp hSe
    have hid : finishClearingAnimation cfg g [] = g := by
      simp [finishClearingAnimation]
    refine ⟨by rw [hid]; exact hg, by rw [hid]; exact hrows, by simp [hid],
      ?_, ?_⟩
    · rw [hid]
      simp only [List.contains_nil, Bool.not_false, List.filter_true,
        List.drop_zero, List.length_nil]
      rw [← hg]
      exact (range_map_getD g []).symm
    · intro r _ _
      rw [hid]
      simp
  · have hfc : finishClearingAnimation cfg g S =
        List.replicate S.length (List.replicate cfg.gridWidth none) ++
          ((List.range cfg.gridHeight).filter
            (fun y => !(S.contains y))).map (fun y => g.getD y []) := by
      simp only [finishClearingAnimation]
      rw [if_neg hSe]
    have hScount : S.countP (fun a => decide (a < cfg.gridHeight)) =
        S.length :=
      List.countP_eq_length.mpr (fun a ha => by simpa using hSlt a ha)
    have hkeptlen : (((List.range cfg.gridHeight).filter
        (fun y => !(S.contains y))).map (fun y => g.getD y [])).length =
        cfg.gridHeight - S.length := by
      rw [List.length_map, length_filter_not_contains S hS, hScount]
    have hSleH : S.length ≤ cfg.gridHeight := by
      have h1 := countP_range_contains S hS cfg.gridHeight
      have h2 := List.countP_le_length (l := List.range cfg.gridHeight)
        (p := fun y => S.contains y)
      rw [List.length_range] at h2
      omega
    refine ⟨?_, ?_, ?_, ?_, ?_⟩
    · rw [hfc, List.length_append, List.length_replicate, hkeptlen]
      omega
    · intro row hrow
      rw [hfc] at hrow
      rcases List.mem_append.mp hrow with hmem | hmem
      · rw [List.eq_of_mem_replicate hmem]
        exact List.length_replicate _ _
      · rcases List.mem_map.mp hmem with ⟨y, hy, rfl⟩
        have hyH : y < cfg.gridHeight :=
          List.mem_range.mp (List.mem_of_mem_filter hy)
        exact hrows _ (getD_mem_of_lt g y [] (by omega))
    · rw [hfc]
      exact List.take_left' (List.length_replicate _ _)
    · rw [hfc]
      exact List.drop_left' (List.length_replicate _ _)
    · intro r hrH hrS
      have hPr : (fun y => !(S.contains y)) r = true := by
        simp [hrS]
      have hidx := filter_range_get (fun y => !(S.contains y))
        cfg.gridHeight r hrH hPr
      have hkget : (((List.range cfg.gridHeight).filter
          (fun y => !(S.contains y))).map (fun y => g.getD y []))[
          ((List.range r).filter (fun y => !(S.contains y))).length]? =
          some (g.getD r []) := by
        rw [List.getElem?_map, hidx]
        rfl
      have ha : ((List.range r).filter (fun y => !(S.contains y))).length =
          r - S.countP (fun a => decide (a < r)) :=
        length_filter_not_contains S hS r
      have hsplit : S.length = S.countP (fun a => decide (a < r)) +
          S.countP (fun a => decide (r < a)) := by
        rw [List.length_eq_countP_add_countP (fun a => decide (a < r))]
        congr 1
        apply List.countP_congr
        intro a haS
        have hne : a ≠ r := fun he => hrS (he ▸ haS)
        simp only [decide_eq_true_eq]
        constructor
        · intro hna
          omega
        · intro hra
          omega
      have hale : S.countP (fun a => decide (a < r)) ≤ r := by
        rw [← countP_range_contains S hS r]
        have := List.countP_le_length (l := List.range r)
          (p := fun y => S.contains y)
        rw [List.length_range] at this
        exact this
      have hidxeq : r + S.countP (fun a => decide (r < a)) =
          S.length + ((List.range r).filter
            (fun y => !(S.contains y))).length := by
        omega
      rw [hfc, hidxeq,
        List.getElem?_append_right (by rw [List.length_replicate]; omega),
        List.length_replicate, Nat.add_sub_cancel_left, hkget,
        List.getD_eq_getElem g [] (by omega),
        List.getElem?_eq_getElem (by omega : r < g.length)]

/-- C1 counterexample to the claim as stated: clearing the bottom row
(`S = {1}`) of a 2-row grid must move row 0 down to index 1, but the
claim's phrase — shifted down by the count of cleared rows *above* it —
predicts index `0 + 0 = 0`, and the rebuilt grid does not have the old
row 0 there (it has a fresh empty row). -/
theorem remove_rows_claim_counterexample :
    ¬ ((finishClearingAnimation cfgW1H2
        [[some (1, 1, 1)], [some (2, 2, 2)]] [1])[(0 : ℕ) +
          ([1].countP (fun a => decide (a < 0)))]? =
      ([[some (1, 1, 1)], [some (2, 2, 2)]] : Grid)[(0 : ℕ)]?) := by
  decide

/-- C1 witness: on the same concrete grid, the amended statement holds —
row 0 lands at index `0 + |{s ∈ S | s > 0}| = 1`. -/
theorem remove_rows_rebuild_witness :
    (finishClearingAnimation cfgW1H2
        [[some (1, 1, 1)], [some (2, 2, 2)]] [1]).length = cfgW1H2.gridHeight
    ∧ (finishClearingAnimation cfgW1H2
        [[some (1, 1, 1)], [some (2, 2, 2)]] [1])[(0 : ℕ) +
          ([1].countP (fun a => decide (0 < a)))]? =
      ([[some (1, 1, 1)], [some (2, 2, 2)]] : Grid)[(0 : ℕ)]? :=
  ⟨(remove_rows_rebuild cfgW1H2 [[some (1, 1, 1)], [some (2, 2, 2)]] [1]
      (by decide) (by decide) (by decide) (by decide)).1,
   (remove_rows_rebuild cfgW1H2 [[some (1, 1, 1)], [some (2, 2, 2)]] [1]
      (by decide) (by decide) (by decide) (by decide)).2.2.2.2 0
      (by decide) (by decide)⟩
